import Mathlib

/-!
Verification development for the customer-support ticket pipeline.

The definitions below are a shallow embedding of the repository's Python
modules:

* `agents/ticket_analysis_agent.py` — `TicketAnalysisAgent.analyze_ticket`
  and its private helpers;
* `agents/response_agent.py` — `ResponseAgent.generate_response` and
  `ResponseAgent._fill_template`;
* `ticket_processor.py` — `TicketProcessor.process_ticket`;
* `utils/helpers.py` — `identify_urgency_indicators`.

Python strings are embedded as `String`/`List Char`, floats as `ℚ`,
dictionaries as ordered association lists (Python dicts preserve insertion
order), and code that can raise as `Option`-valued functions where `none`
marks the raised exception.  Wall-clock readings of `time.time()` are
modelled as explicit rational parameters.
-/

/-- Python's substring test `pat in hay` on strings: some suffix of `hay`
starts with `pat`. -/
def strContains (hay pat : String) : Bool :=
  hay.data.tails.any (fun t => pat.data.isPrefixOf t)

/-- Python's `str.lower` (faithful on the ASCII text the rule sets use). -/
def lowerStr (s : String) : String :=
  String.mk (s.data.map Char.toLower)

/-- Python's `str.count` for a single-character needle: the number of
occurrences of the character. -/
def countChar (s : String) (c : Char) : Nat :=
  s.data.count c

/-- `TicketCategory` from `agents/ticket_analysis_agent.py`. -/
inductive TicketCategory
  | technical
  | billing
  | feature
  | access
deriving DecidableEq

/-- The `value` of each `TicketCategory` enum member. -/
def TicketCategory.value : TicketCategory → String
  | .technical => "technical"
  | .billing => "billing"
  | .feature => "feature"
  | .access => "access"

/-- `Priority` from `agents/ticket_analysis_agent.py`. -/
inductive Priority
  | low
  | medium
  | high
  | urgent
deriving DecidableEq

/-- The numeric `value` of each `Priority` enum member. -/
def Priority.value : Priority → Nat
  | .low => 1
  | .medium => 2
  | .high => 3
  | .urgent => 4

/-- The `TicketAnalysis` record built by `analyze_ticket`. -/
structure TicketAnalysis where
  category : TicketCategory
  priority : Priority
  key_points : List String
  required_expertise : List String
  sentiment : ℚ
  urgency_indicators : List String
  business_impact : String
  suggested_response_type : String
deriving DecidableEq

/-- The customer metadata read by the pipeline: the optional `role`, `plan`
and `company_size` entries of the `customer_info` dictionary. -/
structure CustomerInfo where
  role : Option String
  plan : Option String
  company_size : Option String
deriving DecidableEq

/-- `self.urgency_keywords` of `TicketAnalysisAgent`. -/
def urgency_keywords : List String :=
  ["urgent", "asap", "immediately", "emergency", "critical",
   "as soon as possible", "right away", "time sensitive"]

/-- `self.vip_roles` of `TicketAnalysisAgent`. -/
def vip_roles : List String :=
  ["ceo", "cfo", "cto", "director", "vp", "vice president",
   "president", "head", "chief", "manager"]

/-- The access-category keyword list of `analyze_ticket`. -/
def access_keywords : List String :=
  ["access", "login", "permission", "403", "dashboard"]

/-- The billing-category keyword list of `analyze_ticket`. -/
def billing_keywords : List String :=
  ["bill", "invoice", "payment", "charge", "pricing", "cost", "subscription"]

/-- The feature-category keyword list of `analyze_ticket`. -/
def feature_keywords : List String :=
  ["feature", "enhancement", "improvement", "add", "suggestion", "roadmap"]

/-- Python's `any(word in content for word in words)`. -/
def hasAny (content : String) (words : List String) : Bool :=
  words.any (fun w => strContains content w)

/-- `TicketAnalysisAgent._extract_access_key_points`. -/
def extract_access_key_points (content : String) : List String :=
  let points :=
    (if strContains content "dashboard" then ["Cannot access dashboard"] else []) ++
    (if strContains content "403" then ["Receiving 403 error"] else []) ++
    (if strContains content "password" then ["Password issue"] else []) ++
    (if strContains content "login" then ["Login problem"] else []) ++
    (if strContains content "permission" then ["Permission problem"] else [])
  if points = [] then ["General access issue"] else points

/-- `TicketAnalysisAgent._extract_billing_key_points`. -/
def extract_billing_key_points (content : String) : List String :=
  let points :=
    (if strContains content "invoice" then ["Invoice question"] else []) ++
    (if strContains content "payment" then ["Payment issue"] else []) ++
    (if strContains content "charge" then ["Charge inquiry"] else []) ++
    (if strContains content "refund" then ["Refund request"] else []) ++
    (if strContains content "cycle" || strContains content "pro-rat" then
      ["Billing cycle question"] else [])
  if points = [] then ["General billing question"] else points

/-- `TicketAnalysisAgent._extract_feature_key_points`. -/
def extract_feature_key_points (content : String) : List String :=
  let points :=
    (if strContains content "request" then ["Feature request"] else []) ++
    (if strContains content "suggest" then ["Feature suggestion"] else []) ++
    (if strContains content "add" then ["Addition request"] else []) ++
    (if strContains content "improve" then ["Improvement suggestion"] else []) ++
    (if strContains content "roadmap" then ["Roadmap inquiry"] else [])
  if points = [] then ["General feature request"] else points

/-- `TicketAnalysisAgent._extract_technical_key_points`. -/
def extract_technical_key_points (content : String) : List String :=
  let points :=
    (if strContains content "error" then ["Error reported"] else []) ++
    (if strContains content "crash" then ["System crash"] else []) ++
    (if strContains content "bug" then ["Bug report"] else []) ++
    (if strContains content "slow" then ["Performance issue"] else []) ++
    (if strContains content "not working" then ["Functionality issue"] else [])
  if points = [] then ["Technical issue"] else points

/-- `TicketAnalysisAgent._extract_urgency_indicators` (the agent's own
extractor, applied to the lower-cased content). -/
def extract_urgency_indicators (content : String) : List String :=
  let indicators := urgency_keywords.filter (fun k => strContains content k)
  let indicators := indicators ++
    (if 3 ≤ countChar content '!' then ["multiple exclamation marks"] else [])
  indicators ++
    (if strContains content "today" || strContains content "now" ||
        strContains content "immediately" then
      ["immediate timeframe"] else [])

/-- `TicketAnalysisAgent._assess_business_impact`. -/
def assess_business_impact (content : String) : String :=
  if strContains content "revenue" || strContains content "sales" then
    "Revenue impact"
  else if strContains content "customer" &&
      (strContains content "cannot" || strContains content "unable") then
    "Customer impact"
  else if strContains content "production" then "Production impact"
  else if strContains content "deadline" then "Deadline impact"
  else if strContains content "payroll" then "Payroll processing impact"
  else ""

/-- `TicketAnalysisAgent._analyze_sentiment`: the fixed negative lexicon. -/
def negative_words : List String :=
  ["cannot", "issue", "problem", "error", "fail", "bug", "broken", "urgent",
   "bad", "wrong"]

/-- `TicketAnalysisAgent._analyze_sentiment`: the fixed positive lexicon. -/
def positive_words : List String :=
  ["thank", "please", "appreciate", "good", "great", "working"]

/-- `TicketAnalysisAgent._analyze_sentiment`. -/
def analyze_sentiment (content : String) : ℚ :=
  let negative_count := (negative_words.filter (fun w => strContains content w)).length
  let positive_count := (positive_words.filter (fun w => strContains content w)).length
  let total := negative_count + positive_count
  if total = 0 then 0
  else ((positive_count : ℚ) - (negative_count : ℚ)) / (total : ℚ)

/-- The prioritization block of `analyze_ticket` (lines 113-136): priority
starts at `MEDIUM` and is updated by the urgency, critical-business-content,
VIP-role and Enterprise-plan checks in source order. -/
def priorityRules (hasUrgency critical vip enterprise : Bool) : Priority :=
  let p := Priority.medium
  let p := if hasUrgency then
      (if p.value < Priority.high.value then Priority.high else p) else p
  let p := if critical then Priority.urgent else p
  let p := if vip then
      (if p.value < Priority.high.value then Priority.high else p) else p
  if enterprise then
    (if p.value < Priority.medium.value then Priority.medium else p) else p

/-- The critical-business-content test of `analyze_ticket` line 122:
`"payroll" in content or "revenue" in content or "cannot work" in content`
over the lower-cased ticket content. -/
def criticalBusinessContent (content : String) : Bool :=
  strContains content "payroll" || strContains content "revenue" ||
    strContains content "cannot work"

/-- The VIP check of `analyze_ticket` lines 127-131: `customer_info` holds a
`role` whose lower-casing contains one of `vip_roles`. -/
def vipCustomer (customer_info : Option CustomerInfo) : Bool :=
  match customer_info with
  | some ci =>
    match ci.role with
    | some r => hasAny (lowerStr r) vip_roles
    | none => false
  | none => false

/-- The Enterprise-plan check of `analyze_ticket` line 134. -/
def enterprisePlan (customer_info : Option CustomerInfo) : Bool :=
  match customer_info with
  | some ci => ci.plan == some "Enterprise"
  | none => false

/-- `TicketAnalysisAgent.analyze_ticket`: categorization, key-point
extraction, prioritization, business impact and sentiment over the
lower-cased ticket content.  (The `Subject:` regex of lines 76-77 binds a
variable the function never reads afterwards, so it is not modelled.) -/
def analyze_ticket (ticket_content : String)
    (customer_info : Option CustomerInfo) : TicketAnalysis :=
  let content := lowerStr ticket_content
  let category :=
    if hasAny content access_keywords then TicketCategory.access
    else if hasAny content billing_keywords then TicketCategory.billing
    else if hasAny content feature_keywords then TicketCategory.feature
    else TicketCategory.technical
  let required_expertise :=
    match category with
    | .access => ["access control", "permissions", "authentication"]
    | .billing => ["billing", "accounting", "finance"]
    | .feature => ["product management", "development"]
    | .technical => ["technical support", "troubleshooting"]
  let suggested_response_type :=
    match category with
    | .access => "access_issue"
    | .billing => "billing_inquiry"
    | .feature => "feature_request"
    | .technical => "technical_issue"
  let key_points :=
    match category with
    | .access => extract_access_key_points content
    | .billing => extract_billing_key_points content
    | .feature => extract_feature_key_points content
    | .technical => extract_technical_key_points content
  let urgency_indicators := extract_urgency_indicators content
  let critical := criticalBusinessContent content
  let business_impact :=
    if critical then "Critical business function impacted"
    else assess_business_impact content
  let priority := priorityRules (!urgency_indicators.isEmpty) critical
    (vipCustomer customer_info) (enterprisePlan customer_info)
  { category := category
    priority := priority
    key_points := key_points
    required_expertise := required_expertise
    sentiment := analyze_sentiment content
    urgency_indicators := urgency_indicators
    business_impact := business_impact
    suggested_response_type := suggested_response_type }

/-- The opening-brace character of a `\x7bplaceholder\x7d` token. -/
def lbrace : Char := Char.ofNat 123

/-- The closing-brace character of a `\x7bplaceholder\x7d` token. -/
def rbrace : Char := Char.ofNat 125

/-- Python's `re.findall` for the placeholder pattern of `_fill_template`
(an opening brace, one or more non-closing-brace characters, a closing
brace): the leftmost non-overlapping matches' group contents, in order.
The scan consumes at least one character per step, so it is written by
structural recursion on a fuel that `findall` seeds with the text length. -/
def findallAux (fuel : Nat) (l : List Char) : List (List Char) :=
  match fuel, l with
  | _, [] => []
  | 0, _ => []
  | fuel + 1, c :: rest =>
    if c = lbrace then
      match rest.dropWhile (fun d => d != rbrace) with
      | [] => findallAux fuel rest
      | _ :: tail =>
        let name := rest.takeWhile (fun d => d != rbrace)
        if name = [] then findallAux fuel rest else name :: findallAux fuel tail
    else findallAux fuel rest

/-- `re.findall` of the placeholder pattern over a whole text. -/
def findall (l : List Char) : List (List Char) :=
  findallAux l.length l

/-- Python's `str.replace`: replace every (leftmost, non-overlapping)
occurrence of `pat` by `rep`.  Written with a length fuel for the same
reason as `findallAux`; `_fill_template` only calls it with a non-empty
`pat` (for `pat = []` it is the identity, unlike Python's `str.replace`,
which interleaves `rep` everywhere — no caller exercises that case). -/
def replaceAllAux (pat rep : List Char) (fuel : Nat) (l : List Char) : List Char :=
  match fuel, l with
  | _, [] => []
  | 0, l => l
  | fuel + 1, c :: rest =>
    if !pat.isEmpty && pat.isPrefixOf (c :: rest) then
      rep ++ replaceAllAux pat rep fuel (rest.drop (pat.length - 1))
    else
      c :: replaceAllAux pat rep fuel rest

/-- `str.replace` over a whole text. -/
def replaceAll (pat rep l : List Char) : List Char :=
  replaceAllAux pat rep l.length l

/-- Python dict lookup `d[k]` / `k in d`, with the dictionary embedded as an
insertion-ordered association list. -/
def dictGet (d : List (String × String)) (k : String) : Option String :=
  match d with
  | [] => none
  | (a, b) :: rest => if a = k then some b else dictGet rest k

/-- `ResponseAgent._fill_template`: for each placeholder found in the
template, replace every occurrence of the braced token with the supplied
value, or with the bracketed `[name]` fallback when no value is supplied. -/
def fill_template (template : String) (vars : List (String × String)) : String :=
  String.mk ((findall template.data).foldl (fun acc name =>
    match dictGet vars (String.mk name) with
    | some v => replaceAll (lbrace :: name ++ [rbrace]) v.data acc
    | none => replaceAll (lbrace :: name ++ [rbrace]) ('[' :: name ++ [']']) acc)
    template.data)

/-- The `ResponseSuggestion` record of `agents/response_agent.py`. -/
structure ResponseSuggestion where
  response_text : String
  confidence_score : ℚ
  requires_approval : Bool
  suggested_actions : List String
deriving DecidableEq

/-- `ResponseAgent._generate_access_response_vars` (its `context` argument
is never read by the source). -/
def generate_access_response_vars (ta : TicketAnalysis) : List (String × String) :=
  let feature :=
    if ta.key_points.any (fun p => strContains (lowerStr p) "dashboard") then
      "admin dashboard"
    else if ta.key_points.any (fun p => strContains (lowerStr p) "login") then
      "login system"
    else "system"
  let diagnosis :=
    if ta.key_points.any (fun p => strContains p "403") then
      "It appears you're encountering a 403 error, which typically indicates a permissions issue. This could be due to recent security updates or account changes."
    else
      "Based on your description, it appears to be an access control issue that might be related to your account permissions."
  let resolution_steps := "Please try the following steps:
1. Clear your browser cache and cookies
2. Try accessing from an incognito/private window
3. Ensure you're using the correct admin credentials

If these steps don't resolve the issue, our technical team will need to investigate your account permissions."
  [("feature", feature), ("diagnosis", diagnosis),
   ("resolution_steps", resolution_steps)] ++
  (if 3 ≤ ta.priority.value then
    [("priority_level", "HIGH"), ("eta", "Today (within 2-3 hours)")]
  else
    [("priority_level", "MEDIUM"), ("eta", "Within 24 hours")])

/-- `ResponseAgent._generate_billing_response_vars`. -/
def generate_billing_response_vars (ta : TicketAnalysis) : List (String × String) :=
  let billing_topic :=
    if ta.key_points.any (fun p => strContains (lowerStr p) "cycle") then
      "billing cycle"
    else if ta.key_points.any (fun p => strContains (lowerStr p) "invoice") then
      "invoice"
    else if ta.key_points.any (fun p => strContains (lowerStr p) "payment") then
      "payment"
    else "billing inquiry"
  let explanation :=
    if billing_topic = "billing cycle" then
      "Our system bills from the 15th of each month. When you sign up on a date other than the 15th, we pro-rate your first invoice for the partial period.

For example, if you signed up on the 20th, your first invoice includes a pro-rated amount for the period from the 20th to the 14th of the following month. Subsequent invoices will cover the full period from the 15th to the 14th of the next month."
    else
      "Our billing system processes payments on a monthly basis, with the billing cycle starting on the 15th of each month. Your plan charges are calculated based on your subscription level and any additional usage fees that may apply."
  let next_steps := "If you would like to:
1. Receive a detailed breakdown of your charges, we can provide that by email
2. Change your billing date to align with your signup date, we can arrange this for you
3. Discuss other billing options, please let us know your preferences"
  [("billing_topic", billing_topic), ("explanation", explanation),
   ("next_steps", next_steps)]

/-- `ResponseAgent._generate_feature_response_vars`. -/
def generate_feature_response_vars (ta : TicketAnalysis) : List (String × String) :=
  let feature_points := ta.key_points.filter (fun p =>
    strContains (lowerStr p) "feature" || strContains (lowerStr p) "request")
  let feature_name :=
    match feature_points with
    | p :: _ => (p.replace "Feature request: " "").replace "Addition request: " ""
    | [] => "the requested functionality"
  let feedback := "Thank you for your suggestion about " ++ feature_name ++
    ". We appreciate customer feedback as it helps us improve our product.

We regularly review feature requests and prioritize them based on customer demand, alignment with our roadmap, and technical feasibility."
  let timeline := "While I can't provide a specific timeline for implementation at this moment, I've logged your request in our product management system. Our product team will review it during our next planning cycle.

We'll be sure to notify you if this feature is added in a future update."
  [("feature_name", feature_name), ("feedback", feedback),
   ("timeline", timeline)]

/-- `ResponseAgent._generate_technical_response_vars`. -/
def generate_technical_response_vars (ta : TicketAnalysis) : List (String × String) :=
  let issue_description :=
    if ta.key_points.any (fun p => strContains (lowerStr p) "error") then
      "the error you encountered"
    else if ta.key_points.any (fun p => strContains (lowerStr p) "crash") then
      "the system crash"
    else if ta.key_points.any (fun p => strContains (lowerStr p) "slow") then
      "the performance issue"
    else "the technical issue you reported"
  let troubleshooting := "To help us resolve this issue efficiently, could you please provide the following information if you haven't already:

1. The exact error message you're seeing (or a screenshot)
2. Which browser and operating system you're using
3. The steps you were taking when the issue occurred
4. Whether this is a new issue or has happened before"
  let solution := "Once we have this information, our technical team will investigate the issue. In the meantime, you might try:

1. Clearing your browser cache and cookies
2. Trying a different browser
3. Restarting your device

These simple steps sometimes resolve technical issues without further intervention."
  [("issue_description", issue_description),
   ("troubleshooting", troubleshooting), ("solution", solution)] ++
  [("priority_level", if 3 ≤ ta.priority.value then "HIGH" else "STANDARD")]

/-- The template-selection block of `generate_response` (lines 37-47): the
suggested-response-type key, else the category-name key, else the first
entry; `none` models the `IndexError` that `list(response_templates.keys())[0]`
raises on an empty mapping. -/
def selectTemplate (ta : TicketAnalysis)
    (response_templates : List (String × String)) : Option (String × String) :=
  match dictGet response_templates ta.suggested_response_type with
  | some t => some (ta.suggested_response_type, t)
  | none =>
    match dictGet response_templates ta.category.value with
    | some t => some (ta.category.value, t)
    | none => response_templates.head?

/-- `ResponseAgent.generate_response`; `none` models an escaped exception
(reachable only through template selection on an empty template mapping). -/
def generate_response (ta : TicketAnalysis)
    (response_templates : List (String × String))
    (context : List (String × String)) : Option ResponseSuggestion :=
  match selectTemplate ta response_templates with
  | none => none
  | some (_, template) =>
    let customer_name := (dictGet context "customer_name").getD "Customer"
    let response_vars := [("name", customer_name)]
    let response_vars := response_vars ++
      (match ta.category with
      | .access => generate_access_response_vars ta
      | .billing => generate_billing_response_vars ta
      | .feature => generate_feature_response_vars ta
      | .technical => generate_technical_response_vars ta)
    let suggested_actions :=
      match ta.category with
      | .access =>
        ["Verify user permissions in the admin system",
         "Check for recent security updates that might affect access"] ++
        (if 3 ≤ ta.priority.value then
          ["Escalate to access control team if not resolved within 1 hour"]
        else [])
      | .billing =>
        ["Verify billing records",
         "Consider offering billing adjustments if appropriate"]
      | .feature =>
        ["Log feature request in product backlog",
         "Check with product team about similar planned features"]
      | .technical =>
        ["Document the issue in internal knowledge base",
         "Check for similar recent technical issues"] ++
        (if 3 ≤ ta.priority.value then
          ["Escalate to technical specialists if not resolved within 2 hours"]
        else [])
    let requires_approval := ta.priority.value = 4
    let suggested_actions := suggested_actions ++
      (if ta.priority.value = 4 then
        ["Supervisory review required due to priority"] else [])
    let confidence_score : ℚ := 0.8
    let confidence_score :=
      if ta.key_points.length ≤ 1 then confidence_score - 0.2
      else confidence_score
    let confidence_score :=
      if ta.sentiment < -0.5 then confidence_score - 0.1 else confidence_score
    let suggested_actions := suggested_actions ++
      (if ta.sentiment < -0.5 then
        ["Follow up personally due to customer sentiment"] else [])
    let response_text := fill_template template response_vars
    some { response_text := response_text
           confidence_score := max 0.1 (min confidence_score 1)
           requires_approval := requires_approval
           suggested_actions := suggested_actions }

/-- The whitespace characters of Python's `str.strip` and `\s`. -/
def isPySpace (c : Char) : Bool :=
  c = ' ' || c = Char.ofNat 9 || c = Char.ofNat 10 || c = Char.ofNat 13 ||
  c = Char.ofNat 11 || c = Char.ofNat 12

/-- Python's `str.strip`: drop leading and trailing whitespace. -/
def pyStrip (l : List Char) : List Char :=
  ((l.dropWhile isPySpace).reverse.dropWhile isPySpace).reverse

/-- The salutation keywords of the `_build_context` name regex, in the
regex's alternation order. -/
def salutation_keywords : List String :=
  ["Regards", "Thanks", "Best regards", "Sincerely"]

/-- One attempt of the `_build_context` name regex at a fixed position:
a salutation keyword, an optional comma, greedy whitespace, then the lazy
group up to the next newline or the end of the text. -/
def matchSalutationAt (l : List Char) : Option (List Char) :=
  salutation_keywords.findSome? (fun k =>
    if k.data.isPrefixOf l then
      let r := l.drop k.data.length
      let r := match r with
        | c :: rest => if c = ',' then rest else r
        | [] => r
      some ((r.dropWhile isPySpace).takeWhile (fun c => c != Char.ofNat 10))
    else none)

/-- `re.search` for the `_build_context` name regex: the first position at
which the pattern matches, returning its captured group. -/
def searchSalutation : List Char → Option (List Char)
  | [] => none
  | c :: rest =>
    match matchSalutationAt (c :: rest) with
    | some g => some g
    | none => searchSalutation rest

/-- The `SupportTicket` record of `ticket_processor.py` (an absent
`customer_info` dictionary behaves as one whose entries are all absent). -/
structure SupportTicket where
  id : String
  subject : String
  content : String
  customer_info : CustomerInfo

/-- The `TicketResolution` record of `ticket_processor.py`. -/
structure TicketResolution where
  ticket_id : String
  analysis : Option TicketAnalysis
  response : Option ResponseSuggestion
  status : String
  processing_time : ℚ
  error : Option String
deriving DecidableEq

/-- `TicketProcessor._build_context`. -/
def build_context (ticket : SupportTicket) : List (String × String) :=
  let customer_name :=
    match searchSalutation ticket.content.data with
    | some g => String.mk (pyStrip g)
    | none => "Customer"
  [("ticket_id", ticket.id), ("ticket_subject", ticket.subject),
   ("customer_name", customer_name),
   ("customer_role", ticket.customer_info.role.getD "Unknown"),
   ("customer_plan", ticket.customer_info.plan.getD "Unknown"),
   ("company_size", ticket.customer_info.company_size.getD "Unknown")]

/-- The control flow of `TicketProcessor.process_ticket` over the outcomes
of its two fallible stages.  The processor's `analyze_ticket` and
`generate_response` wrappers catch every exception of the underlying agent
and return `None`, modelled as an `Option`-valued stage result; the
`finally` block records `time.time() - start_time` on every path, modelled
by the explicit `start_time`/`end_time` clock readings. -/
def processTicketWith (tid : String) (analysisResult : Option TicketAnalysis)
    (responseOf : TicketAnalysis → Option ResponseSuggestion)
    (start_time end_time : ℚ) : TicketResolution :=
  let processing_time := end_time - start_time
  match analysisResult with
  | none =>
    { ticket_id := tid, analysis := none, response := none,
      status := "error", processing_time := processing_time,
      error := some "Analysis failed" }
  | some analysis =>
    match responseOf analysis with
    | none =>
      { ticket_id := tid, analysis := some analysis, response := none,
        status := "error", processing_time := processing_time,
        error := some "Response generation failed" }
    | some response =>
      { ticket_id := tid, analysis := some analysis,
        response := some response, status := "resolved",
        processing_time := processing_time, error := none }

/-- `TicketProcessor.process_ticket` wired to the concrete agents: the
analysis stage of the embedding is total, so its outcome is always `some`;
the response stage is `none` exactly when `generate_response` raises. -/
def process_ticket (response_templates : List (String × String))
    (ticket : SupportTicket) (start_time end_time : ℚ) : TicketResolution :=
  let context := build_context ticket
  processTicketWith ticket.id
    (some (analyze_ticket ticket.content (some ticket.customer_info)))
    (fun analysis => generate_response analysis response_templates context)
    start_time end_time

/-- `urgency_words` of `utils/helpers.py` `identify_urgency_indicators`
(the source list repeats "urgent"). -/
def urgency_words : List String :=
  ["urgent", "asap", "emergency", "immediately", "critical",
   "as soon as possible", "quickly", "right away", "urgent",
   "highest priority", "deadline", "sos", "time sensitive"]

/-- Matching of the first `identify_urgency_indicators` time pattern
`by (?:today|tomorrow|this afternoon)` at a fixed position. -/
def deadline1At (l : List Char) : Bool :=
  "by today".data.isPrefixOf l || "by tomorrow".data.isPrefixOf l ||
  "by this afternoon".data.isPrefixOf l

/-- Matching of the second `identify_urgency_indicators` time pattern
`within \d+ (?:hour|minute|day)` at a fixed position. -/
def deadline2At (l : List Char) : Bool :=
  "within ".data.isPrefixOf l &&
  (let r := l.drop 7
   let ds := r.takeWhile Char.isDigit
   !ds.isEmpty &&
   (let r2 := r.dropWhile Char.isDigit
    " hour".data.isPrefixOf r2 || " minute".data.isPrefixOf r2 ||
    " day".data.isPrefixOf r2))

/-- Matching of `\d{1,2}(?::\d{2})?\s*(?:am|pm|AM|PM)` at a fixed position
(the text is lower-cased before matching, so the upper-case branches are
mute); every quantifier split is tried, so this is exactly match
existence at the position. -/
def timeTokenAt (l : List Char) : Bool :=
  match l with
  | [] => false
  | d1 :: rest =>
    d1.isDigit &&
    (let starts :=
      match rest with
      | d2 :: rest2 => if d2.isDigit then [rest2, rest] else [rest]
      | [] => [rest]
     starts.any (fun r =>
      let cands := r ::
        (match r with
         | c :: a :: b :: r2 =>
           if c = ':' && a.isDigit && b.isDigit then [r2] else []
         | _ => [])
      cands.any (fun r2 =>
        let w := r2.dropWhile isPySpace
        "am".data.isPrefixOf w || "pm".data.isPrefixOf w)))

/-- The search embedded in a `.*` regex segment: some split point, not
crossing a newline (Python's `.` does not match a newline), satisfies the
continuation. -/
def scanNoNewline (p : List Char → Bool) : List Char → Bool
  | [] => p []
  | c :: rest => p (c :: rest) || (c != Char.ofNat 10 && scanNoNewline p rest)

/-- Matching of the third `identify_urgency_indicators` time pattern
`need.*by.*\d{1,2}(?::\d{2})?\s*(?:am|pm|AM|PM)` starting at a fixed
position. -/
def deadline3At (l : List Char) : Bool :=
  "need".data.isPrefixOf l &&
  scanNoNewline (fun t => "by".data.isPrefixOf t &&
    scanNoNewline timeTokenAt (t.drop 2)) (l.drop 4)

/-- The `re.findall(pattern, lower_text)` calls of
`identify_urgency_indicators`, modelled as the list of suffixes of the text
at which the pattern matches.  The matched texts themselves and `findall`'s
non-overlapping enumeration are abstracted (nothing downstream reads them);
the list is non-empty exactly when `re.findall` returns matches. -/
def patternMatches (patAt : List Char → Bool) (l : List Char) : List (List Char) :=
  l.tails.filter patAt

/-- `identify_urgency_indicators` of `utils/helpers.py`. -/
def identify_urgency_indicators (text : String) : List String :=
  let lower_text := lowerStr text
  let indicators := urgency_words.filter (fun w => strContains lower_text w)
  let indicators := indicators ++
    ((patternMatches deadline1At lower_text.data).map String.mk ++
     (patternMatches deadline2At lower_text.data).map String.mk ++
     (patternMatches deadline3At lower_text.data).map String.mk)
  indicators ++
    (if strContains text "!!!" || strContains text "!!" then
      ["multiple exclamation marks"] else [])

/-- The braced token `\x7bname\x7d` of a placeholder, as `_fill_template`
builds it. -/
def bracedToken (name : List Char) : List Char :=
  lbrace :: name ++ [rbrace]

/-- The value `_fill_template` substitutes for a placeholder: the supplied
value, or the bracketed `[name]` fallback when none is supplied. -/
def substValue (vars : List (String × String)) (name : List Char) : List Char :=
  match dictGet vars (String.mk name) with
  | some v => v.data
  | none => '[' :: name ++ [']']

/-- A template written as an alternation of literal segments and
placeholders: each pair contributes its literal then its braced
placeholder, and `tailLit` is the trailing literal. -/
def assemble (segs : List (List Char × List Char)) (tailLit : List Char) : List Char :=
  segs.foldr (fun p acc => p.1 ++ bracedToken p.2 ++ acc) tailLit

/-- Modelled from the spec: "Template filling replaces every `\x7bname\x7d`-style
placeholder with its synthesized value; a placeholder with no supplied value
is rendered literally as `[name]`" — the one-pass rendering of an
alternating template, to be compared with `fill_template`. -/
def renderSpec (vars : List (String × String))
    (segs : List (List Char × List Char)) (tailLit : List Char) : List Char :=
  segs.foldr (fun p acc => p.1 ++ substValue vars p.2 ++ acc) tailLit

/-- The intermediate state of `_fill_template`'s replacement loop: the
placeholders whose names are in `done` are already substituted, the others
still stand as braced tokens. -/
def renderPartial (vars : List (String × String)) (done : List (List Char))
    (segs : List (List Char × List Char)) (tailLit : List Char) : List Char :=
  segs.foldr (fun p acc =>
    p.1 ++ (if p.2 ∈ done then substValue vars p.2 else bracedToken p.2) ++ acc)
    tailLit

/-- The well-formedness hypotheses of the amended template-closure claim:
every literal segment is free of opening braces, and every placeholder name
is non-empty and free of both braces. -/
def GoodSegs (segs : List (List Char × List Char)) : Prop :=
  ∀ p ∈ segs, lbrace ∉ p.1 ∧ lbrace ∉ p.2 ∧ rbrace ∉ p.2 ∧ p.2 ≠ []

/-- The supplied-values hypothesis of the amended template-closure claim:
no supplied value contains an opening brace. -/
def GoodVars (vars : List (String × String)) : Prop :=
  ∀ kv ∈ vars, lbrace ∉ kv.2.data

theorem ite_points_ne_nil (pts : List String) (fb : String) :
    (if pts = [] then [fb] else pts) ≠ [] := by
  split
  · simp
  · next h => exact h

theorem hasAny_of_mem {c w : String} {words : List String} (hm : w ∈ words)
    (hc : strContains c w = true) : hasAny c words = true :=
  List.any_eq_true.mpr ⟨w, hm, hc⟩

theorem extract_access_key_points_ne_nil (c : String) :
    extract_access_key_points c ≠ [] :=
  ite_points_ne_nil _ _

theorem extract_billing_key_points_ne_nil (c : String) :
    extract_billing_key_points c ≠ [] :=
  ite_points_ne_nil _ _

theorem extract_feature_key_points_ne_nil (c : String) :
    extract_feature_key_points c ≠ [] :=
  ite_points_ne_nil _ _

theorem extract_technical_key_points_ne_nil (c : String) :
    extract_technical_key_points c ≠ [] :=
  ite_points_ne_nil _ _

theorem priorityRules_ge_medium :
    ∀ u c v e, Priority.medium.value ≤ (priorityRules u c v e).value := by decide

theorem priorityRules_high_of_urgency :
    ∀ u c v e, u = true → Priority.high.value ≤ (priorityRules u c v e).value := by
  decide

theorem priorityRules_urgent_of_critical :
    ∀ u c v e, c = true → priorityRules u c v e = Priority.urgent := by decide

theorem priorityRules_high_of_vip :
    ∀ u c v e, v = true → Priority.high.value ≤ (priorityRules u c v e).value := by
  decide

theorem sentiment_ratio_bounds (n p : ℕ) :
    -1 ≤ (if n + p = 0 then (0:ℚ) else ((p:ℚ) - (n:ℚ)) / ((n + p : ℕ) : ℚ)) ∧
    (if n + p = 0 then (0:ℚ) else ((p:ℚ) - (n:ℚ)) / ((n + p : ℕ) : ℚ)) ≤ 1 := by
  split
  · norm_num
  · rename_i h
    have hpos : (0:ℚ) < ((n + p : ℕ) : ℚ) := by
      exact_mod_cast Nat.pos_of_ne_zero h
    constructor
    · rw [le_div_iff₀ hpos]
      push_cast
      have hn : (0:ℚ) ≤ (n : ℚ) := Nat.cast_nonneg n
      have hp : (0:ℚ) ≤ (p : ℚ) := Nat.cast_nonneg p
      linarith
    · rw [div_le_one hpos]
      push_cast
      have hn : (0:ℚ) ≤ (n : ℚ) := Nat.cast_nonneg n
      linarith

theorem analyze_sentiment_bounds (c : String) :
    -1 ≤ analyze_sentiment c ∧ analyze_sentiment c ≤ 1 := by
  have e : analyze_sentiment c =
      (if (negative_words.filter (fun w => strContains c w)).length +
          (positive_words.filter (fun w => strContains c w)).length = 0 then (0:ℚ)
       else (((positive_words.filter (fun w => strContains c w)).length : ℚ) -
             ((negative_words.filter (fun w => strContains c w)).length : ℚ)) /
            (((negative_words.filter (fun w => strContains c w)).length +
              (positive_words.filter (fun w => strContains c w)).length : ℕ) : ℚ)) := rfl
  rw [e]
  exact sentiment_ratio_bounds _ _

/-- C2: category classification is first-match-wins over the lower-cased
content in the fixed order access, billing, feature, else technical; the
suggested-response-type is the fixed key of the chosen category; in
particular a ticket containing "invoice" and "feature request" (and no
access keyword, which the stated access-first order would catch earlier)
classifies as billing. -/
theorem c2_category_first_match_wins (tc : String) (ci : Option CustomerInfo) :
    ((analyze_ticket tc ci).category =
      (if hasAny (lowerStr tc) access_keywords then TicketCategory.access
       else if hasAny (lowerStr tc) billing_keywords then TicketCategory.billing
       else if hasAny (lowerStr tc) feature_keywords then TicketCategory.feature
       else TicketCategory.technical)) ∧
    ((analyze_ticket tc ci).suggested_response_type =
      (match (analyze_ticket tc ci).category with
       | .access => "access_issue"
       | .billing => "billing_inquiry"
       | .feature => "feature_request"
       | .technical => "technical_issue")) ∧
    (strContains (lowerStr tc) "invoice" = true →
     strContains (lowerStr tc) "feature request" = true →
     hasAny (lowerStr tc) access_keywords = false →
     (analyze_ticket tc ci).category = TicketCategory.billing) := by
  have hcat : (analyze_ticket tc ci).category =
      (if hasAny (lowerStr tc) access_keywords then TicketCategory.access
       else if hasAny (lowerStr tc) billing_keywords then TicketCategory.billing
       else if hasAny (lowerStr tc) feature_keywords then TicketCategory.feature
       else TicketCategory.technical) := rfl
  refine ⟨hcat, rfl, ?_⟩
  intro h1 _h2 h3
  have hb : hasAny (lowerStr tc) billing_keywords = true :=
    hasAny_of_mem (by decide) h1
  rw [hcat, h3, hb]
  simp

/-- C2 witness: a concrete ticket containing "invoice" and "feature
request" and no access keyword classifies as billing. -/
theorem c2_witness :
    strContains (lowerStr "Our invoice includes a feature request") "invoice" = true ∧
    strContains (lowerStr "Our invoice includes a feature request") "feature request" = true ∧
    hasAny (lowerStr "Our invoice includes a feature request") access_keywords = false ∧
    (analyze_ticket "Our invoice includes a feature request" none).category =
      TicketCategory.billing :=
  ⟨by decide, by decide, by decide,
    (c2_category_first_match_wins "Our invoice includes a feature request" none).2.2
      (by decide) (by decide) (by decide)⟩

/-- C3 counterexample: for ticket content "our sales dropped" the computed
business-impact text is "Revenue impact", which contains "revenue"
(matching case-insensitively, as the spec's rules match throughout), yet
priority stays medium and the business impact is not overwritten — so the
claim's trigger "the business-impact text contains payroll/revenue/cannot
work" does not describe the code, which tests the raw ticket content. -/
theorem c3_counterexample :
    strContains (lowerStr (analyze_ticket "our sales dropped" none).business_impact)
      "revenue" = true ∧
    (analyze_ticket "our sales dropped" none).priority = Priority.medium ∧
    (analyze_ticket "our sales dropped" none).business_impact ≠
      "Critical business function impacted" := by
  refine ⟨?_, ?_, ?_⟩ <;> decide

/-- C3 (amended): priority escalation rules of `analyze_ticket`, with the
urgent trigger tested on the lower-cased ticket content (not on the
business-impact text): priority starts at medium and is never lower; any
urgency indicator raises it to at least high; content containing
"payroll"/"revenue"/"cannot work" forces urgent and overwrites the business
impact; a VIP role raises it to at least high; an Enterprise plan keeps it
at least medium. -/
theorem c3_priority_escalation_amended (tc : String) (ci : Option CustomerInfo) :
    (Priority.medium.value ≤ (analyze_ticket tc ci).priority.value) ∧
    (extract_urgency_indicators (lowerStr tc) ≠ [] →
      Priority.high.value ≤ (analyze_ticket tc ci).priority.value) ∧
    (criticalBusinessContent (lowerStr tc) = true →
      (analyze_ticket tc ci).priority = Priority.urgent ∧
      (analyze_ticket tc ci).business_impact = "Critical business function impacted") ∧
    (vipCustomer ci = true →
      Priority.high.value ≤ (analyze_ticket tc ci).priority.value) ∧
    (enterprisePlan ci = true →
      Priority.medium.value ≤ (analyze_ticket tc ci).priority.value) := by
  have hp : (analyze_ticket tc ci).priority =
      priorityRules (!(extract_urgency_indicators (lowerStr tc)).isEmpty)
        (criticalBusinessContent (lowerStr tc)) (vipCustomer ci)
        (enterprisePlan ci) := rfl
  have hb : (analyze_ticket tc ci).business_impact =
      (if criticalBusinessContent (lowerStr tc) then
        "Critical business function impacted"
       else assess_business_impact (lowerStr tc)) := rfl
  refine ⟨?_, ?_, ?_, ?_, ?_⟩
  · rw [hp]
    exact priorityRules_ge_medium _ _ _ _
  · intro h
    have hu : (!(extract_urgency_indicators (lowerStr tc)).isEmpty) = true := by
      simpa using h
    rw [hp]
    exact priorityRules_high_of_urgency _ _ _ _ hu
  · intro h
    refine ⟨?_, ?_⟩
    · rw [hp]
      exact priorityRules_urgent_of_critical _ _ _ _ h
    · rw [hb, h]
      simp
  · intro h
    rw [hp]
    exact priorityRules_high_of_vip _ _ _ _ h
  · intro _h
    rw [hp]
    exact priorityRules_ge_medium _ _ _ _

/-- C3 witness: a concrete ticket whose content contains "payroll" gets
urgent priority and the overwritten business impact. -/
theorem c3_witness :
    criticalBusinessContent (lowerStr "please fix payroll") = true ∧
    (analyze_ticket "please fix payroll" none).priority = Priority.urgent ∧
    (analyze_ticket "please fix payroll" none).business_impact =
      "Critical business function impacted" :=
  ⟨by decide,
    ((c3_priority_escalation_amended "please fix payroll" none).2.2.1 (by decide)).1,
    ((c3_priority_escalation_amended "please fix payroll" none).2.2.1 (by decide)).2⟩

/-- C7: the sentiment of an analyzed ticket equals
(positive_count - negative_count) / (positive_count + negative_count) over
the fixed lexica counted as substring containments in the lower-cased text,
is 0 when both counts are zero, and always lies in [-1, 1]. -/
theorem c7_sentiment_formula (tc : String) (ci : Option CustomerInfo) :
    ((analyze_ticket tc ci).sentiment =
      (if (positive_words.filter (fun w => strContains (lowerStr tc) w)).length +
          (negative_words.filter (fun w => strContains (lowerStr tc) w)).length = 0
       then (0:ℚ)
       else (((positive_words.filter (fun w => strContains (lowerStr tc) w)).length : ℚ) -
             ((negative_words.filter (fun w => strContains (lowerStr tc) w)).length : ℚ)) /
            (((positive_words.filter (fun w => strContains (lowerStr tc) w)).length : ℚ) +
             ((negative_words.filter (fun w => strContains (lowerStr tc) w)).length : ℚ)))) ∧
    ((positive_words.filter (fun w => strContains (lowerStr tc) w)).length = 0 →
     (negative_words.filter (fun w => strContains (lowerStr tc) w)).length = 0 →
     (analyze_ticket tc ci).sentiment = 0) ∧
    (-1 ≤ (analyze_ticket tc ci).sentiment ∧ (analyze_ticket tc ci).sentiment ≤ 1) := by
  have e : (analyze_ticket tc ci).sentiment = analyze_sentiment (lowerStr tc) := rfl
  have e2 : analyze_sentiment (lowerStr tc) =
      (if (negative_words.filter (fun w => strContains (lowerStr tc) w)).length +
          (positive_words.filter (fun w => strContains (lowerStr tc) w)).length = 0
       then (0:ℚ)
       else (((positive_words.filter (fun w => strContains (lowerStr tc) w)).length : ℚ) -
             ((negative_words.filter (fun w => strContains (lowerStr tc) w)).length : ℚ)) /
            (((negative_words.filter (fun w => strContains (lowerStr tc) w)).length +
              (positive_words.filter (fun w => strContains (lowerStr tc) w)).length : ℕ) : ℚ)) := rfl
  refine ⟨?_, ?_, ?_⟩
  · rw [e, e2]
    by_cases h0 : (negative_words.filter (fun w => strContains (lowerStr tc) w)).length +
        (positive_words.filter (fun w => strContains (lowerStr tc) w)).length = 0
    · rw [if_pos h0, if_pos (by omega)]
    · rw [if_neg h0, if_neg (by omega)]
      congr 1
      push_cast
      ring
  · intro hp hn
    rw [e, e2, hp, hn]
    simp
  · rw [e]
    exact analyze_sentiment_bounds _

/-- C7 witness: the empty ticket has zero counts in both lexica and
sentiment 0. -/
theorem c7_witness :
    (positive_words.filter (fun w => strContains (lowerStr "") w)).length = 0 ∧
    (negative_words.filter (fun w => strContains (lowerStr "") w)).length = 0 ∧
    (analyze_ticket "" none).sentiment = 0 :=
  ⟨by decide, by decide,
    (c7_sentiment_formula "" none).2.1 (by decide) (by decide)⟩

/-- C8: every analysis carries a non-empty key-point list: each
category-specific extractor falls back to a generic key point when no
marker matches. -/
theorem c8_key_points_nonempty (tc : String) (ci : Option CustomerInfo) :
    (analyze_ticket tc ci).key_points ≠ [] := by
  have e : (analyze_ticket tc ci).key_points =
      (match (analyze_ticket tc ci).category with
       | .access => extract_access_key_points (lowerStr tc)
       | .billing => extract_billing_key_points (lowerStr tc)
       | .feature => extract_feature_key_points (lowerStr tc)
       | .technical => extract_technical_key_points (lowerStr tc)) := rfl
  rw [e]
  cases (analyze_ticket tc ci).category
  · exact extract_technical_key_points_ne_nil _
  · exact extract_billing_key_points_ne_nil _
  · exact extract_feature_key_points_ne_nil _
  · exact extract_access_key_points_ne_nil _

/-- C1: `process_ticket` never raises — both stage outcomes and the
top-level control flow are absorbed into the returned resolution, whose
status is always "error" or "resolved"; an error resolution carries a
non-empty error string and lacks the failed stage's output; a resolved
resolution carries both stage outputs and no error; and the processing
time is the recorded clock difference, non-negative whenever the clock
readings are ordered. -/
theorem c1_process_ticket_failure_contract (tid : String)
    (analysisResult : Option TicketAnalysis)
    (responseOf : TicketAnalysis → Option ResponseSuggestion)
    (start_time end_time : ℚ) (hclock : start_time ≤ end_time) :
    ((processTicketWith tid analysisResult responseOf start_time end_time).status = "error" ∨
     (processTicketWith tid analysisResult responseOf start_time end_time).status = "resolved") ∧
    ((processTicketWith tid analysisResult responseOf start_time end_time).status = "resolved" →
      (processTicketWith tid analysisResult responseOf start_time end_time).analysis ≠ none ∧
      (processTicketWith tid analysisResult responseOf start_time end_time).response ≠ none ∧
      (processTicketWith tid analysisResult responseOf start_time end_time).error = none) ∧
    ((processTicketWith tid analysisResult responseOf start_time end_time).status = "error" →
      (processTicketWith tid analysisResult responseOf start_time end_time).response = none ∧
      ∃ e, (processTicketWith tid analysisResult responseOf start_time end_time).error = some e ∧
        e ≠ "") ∧
    ((processTicketWith tid analysisResult responseOf start_time end_time).error =
        some "Analysis failed" →
      (processTicketWith tid analysisResult responseOf start_time end_time).analysis = none) ∧
    (processTicketWith tid analysisResult responseOf start_time end_time).processing_time =
      end_time - start_time ∧
    0 ≤ (processTicketWith tid analysisResult responseOf start_time end_time).processing_time := by
  have ht : 0 ≤ end_time - start_time := sub_nonneg.mpr hclock
  rcases analysisResult with _ | a
  · refine ⟨Or.inl rfl, ?_, ?_, ?_, rfl, ht⟩
    · intro h
      simp [processTicketWith] at h
    · intro _h
      exact ⟨rfl, "Analysis failed", rfl, by decide⟩
    · intro _h
      rfl
  · rcases hr : responseOf a with _ | r
    · refine ⟨Or.inl ?_, ?_, ?_, ?_, ?_, ?_⟩
      · simp only [processTicketWith, hr]
      · intro h
        simp only [processTicketWith, hr] at h
        exact absurd h (by decide)
      · intro _h
        refine ⟨?_, "Response generation failed", ?_, by decide⟩
        · simp only [processTicketWith, hr]
        · simp only [processTicketWith, hr]
      · intro h
        simp only [processTicketWith, hr] at h
        exact absurd h (by decide)
      · simp only [processTicketWith, hr]
      · simp only [processTicketWith, hr]
        exact ht
    · refine ⟨Or.inr ?_, ?_, ?_, ?_, ?_, ?_⟩
      · simp only [processTicketWith, hr]
      · intro _h
        refine ⟨?_, ?_, ?_⟩
        · simp only [processTicketWith, hr]
          exact Option.some_ne_none a
        · simp only [processTicketWith, hr]
          exact Option.some_ne_none r
        · simp only [processTicketWith, hr]
      · intro h
        simp only [processTicketWith, hr] at h
        exact absurd h (by decide)
      · intro h
        simp only [processTicketWith, hr] at h
        exact absurd h (by decide)
      · simp only [processTicketWith, hr]
      · simp only [processTicketWith, hr]
        exact ht

/-- C1 witness: a failed analysis stage at concrete clock readings 0 and 1
records processing time 1 - 0 ≥ 0. -/
theorem c1_witness :
    ((0:ℚ) ≤ 1) ∧
    (processTicketWith "T1" none (fun _ => none) 0 1).processing_time = 1 - 0 ∧
    0 ≤ (processTicketWith "T1" none (fun _ => none) 0 1).processing_time :=
  ⟨by norm_num,
    (c1_process_ticket_failure_contract "T1" none (fun _ => none) 0 1
      (by norm_num)).2.2.2.2.1,
    (c1_process_ticket_failure_contract "T1" none (fun _ => none) 0 1
      (by norm_num)).2.2.2.2.2⟩

/-- C10: with an empty template mapping, `generate_response` raises for
every analysis and context (modelled as `none`), and `process_ticket`
consequently returns an error resolution with the fixed message and the
earlier analysis still attached; no exception escapes. -/
theorem c10_empty_templates :
    (∀ (ta : TicketAnalysis) (context : List (String × String)),
      generate_response ta [] context = none) ∧
    (∀ (ticket : SupportTicket) (start_time end_time : ℚ),
      (process_ticket [] ticket start_time end_time).status = "error" ∧
      (process_ticket [] ticket start_time end_time).error =
        some "Response generation failed" ∧
      (process_ticket [] ticket start_time end_time).analysis =
        some (analyze_ticket ticket.content (some ticket.customer_info)) ∧
      (process_ticket [] ticket start_time end_time).response = none) := by
  have hg : ∀ (ta : TicketAnalysis) (context : List (String × String)),
      generate_response ta [] context = none := by
    intro ta context
    simp [generate_response, selectTemplate, dictGet]
  refine ⟨hg, ?_⟩
  intro ticket start_time end_time
  simp [process_ticket, processTicketWith, hg]

theorem selectTemplate_cons_isSome (ta : TicketAnalysis) (p : String × String)
    (rest : List (String × String)) :
    (selectTemplate ta (p :: rest)).isSome = true := by
  unfold selectTemplate
  cases h1 : dictGet (p :: rest) ta.suggested_response_type
  · cases h2 : dictGet (p :: rest) ta.category.value <;> simp
  · simp

/-- C6: template selection looks up the suggested-response-type key, falls
back to the category-name key, then to the first entry of the (non-empty)
template mapping, and `generate_response` does not raise on that path. -/
theorem c6_template_selection_fallback (ta : TicketAnalysis)
    (context : List (String × String)) (p : String × String)
    (rest : List (String × String)) :
    ((selectTemplate ta (p :: rest)).map Prod.fst =
      some (if (dictGet (p :: rest) ta.suggested_response_type).isSome then
              ta.suggested_response_type
            else if (dictGet (p :: rest) ta.category.value).isSome then
              ta.category.value
            else p.1)) ∧
    (generate_response ta (p :: rest) context).isSome = true := by
  constructor
  · unfold selectTemplate
    cases h1 : dictGet (p :: rest) ta.suggested_response_type
    · cases h2 : dictGet (p :: rest) ta.category.value
      · simp [h1, h2]
      · simp [h1, h2]
    · simp [h1]
  · obtain ⟨⟨k, t⟩, hsel⟩ :=
      Option.isSome_iff_exists.mp (selectTemplate_cons_isSome ta p rest)
    unfold generate_response
    rw [hsel]
    rfl

/-- C4: the confidence score of every generated response is 0.8 minus 0.2
for one-or-zero key points minus 0.1 for sentiment below -0.5 (which also
appends the personal follow-up action), clamped to [0.1, 1]; hence it lies
in [0.1, 1]. -/
theorem c4_confidence_bounds (ta : TicketAnalysis)
    (response_templates context : List (String × String))
    (r : ResponseSuggestion)
    (h : generate_response ta response_templates context = some r) :
    (r.confidence_score = max 0.1 (min
        ((0.8 - (if ta.key_points.length ≤ 1 then (0.2:ℚ) else 0)) -
         (if ta.sentiment < -0.5 then (0.1:ℚ) else 0)) 1)) ∧
    (0.1 ≤ r.confidence_score ∧ r.confidence_score ≤ 1) ∧
    (ta.sentiment < -0.5 →
      "Follow up personally due to customer sentiment" ∈ r.suggested_actions) := by
  rcases hsel : selectTemplate ta response_templates with _ | ⟨k, t⟩
  · unfold generate_response at h
    rw [hsel] at h
    exact absurd h (by simp)
  · unfold generate_response at h
    rw [hsel] at h
    injection h with h
    subst h
    refine ⟨?_, ?_, ?_⟩
    · by_cases hk : ta.key_points.length ≤ 1 <;>
        by_cases hs : ta.sentiment < -0.5 <;>
        simp [hk, hs]
    · constructor
      · exact le_max_left _ _
      · exact max_le (by norm_num) (min_le_right _ _)
    · intro hs
      simp [hs, List.mem_append]

/-- C4 witness: a concrete two-key-point, neutral-sentiment analysis over a
one-entry template set yields confidence max 0.1 (min 0.8 1), inside
[0.1, 1]. -/
theorem c4_witness :
    generate_response
      { category := TicketCategory.technical, priority := Priority.medium,
        key_points := ["a", "b"], required_expertise := [],
        sentiment := 0, urgency_indicators := [], business_impact := "",
        suggested_response_type := "technical_issue" }
      [("technical_issue", "x")] [] =
      some { response_text := "x",
             confidence_score := max 0.1 (min 0.8 1),
             requires_approval := false,
             suggested_actions :=
               ["Document the issue in internal knowledge base",
                "Check for similar recent technical issues"] } ∧
    (0.1 : ℚ) ≤ max 0.1 (min 0.8 1) ∧ max (0.1:ℚ) (min 0.8 1) ≤ 1 := by
  have h : generate_response
      { category := TicketCategory.technical, priority := Priority.medium,
        key_points := ["a", "b"], required_expertise := [],
        sentiment := 0, urgency_indicators := [], business_impact := "",
        suggested_response_type := "technical_issue" }
      [("technical_issue", "x")] [] =
      some { response_text := "x",
             confidence_score := max 0.1 (min 0.8 1),
             requires_approval := false,
             suggested_actions :=
               ["Document the issue in internal knowledge base",
                "Check for similar recent technical issues"] } := by
    simp only [generate_response, selectTemplate, dictGet]
    norm_num [fill_template, findall, findallAux, Priority.value]
  exact ⟨h, (c4_confidence_bounds _ _ _ _ h).2.1.1,
    (c4_confidence_bounds _ _ _ _ h).2.1.2⟩

theorem strContains_double_bang_of_triple (text : String)
    (h : strContains text "!!!" = true) : strContains text "!!" = true := by
  simp only [strContains, List.any_eq_true] at h ⊢
  obtain ⟨t, ht, hp⟩ := h
  refine ⟨t, ht, ?_⟩
  rw [List.isPrefixOf_iff_prefix] at hp ⊢
  exact (by decide : "!!".data <+: "!!!".data).trans hp

theorem c9_decompose (text : String) :
    identify_urgency_indicators text = [] ↔
      ((∀ w ∈ urgency_words, ¬ strContains (lowerStr text) w = true) ∧
       (∀ t ∈ (lowerStr text).data.tails, ¬ deadline1At t = true) ∧
       (∀ t ∈ (lowerStr text).data.tails, ¬ deadline2At t = true) ∧
       (∀ t ∈ (lowerStr text).data.tails, ¬ deadline3At t = true) ∧
       ¬ (strContains text "!!!" || strContains text "!!") = true) := by
  simp only [identify_urgency_indicators, patternMatches, List.append_eq_nil,
    List.map_eq_nil_iff, List.filter_eq_nil_iff]
  constructor
  · rintro ⟨⟨hA, ⟨hB1, hB2⟩, hB3⟩, hC⟩
    refine ⟨hA, hB1, hB2, hB3, ?_⟩
    intro hb
    rw [if_pos hb] at hC
    exact absurd hC (by decide)
  · rintro ⟨hA, hB1, hB2, hB3, hC⟩
    refine ⟨⟨hA, ⟨hB1, hB2⟩, hB3⟩, ?_⟩
    rw [if_neg hC]

/-- C9: `identify_urgency_indicators` returns a non-empty list iff some
rule fires: a fixed vocabulary phrase is contained in the lower-cased text,
or a near-term deadline pattern matches somewhere, or the text contains two
consecutive exclamation marks. -/
theorem c9_urgency_indicators_iff (text : String) :
    identify_urgency_indicators text ≠ [] ↔
      ((∃ w ∈ ["urgent", "asap", "emergency", "immediately", "critical",
               "as soon as possible", "quickly", "right away",
               "highest priority", "deadline", "sos", "time sensitive"],
          strContains (lowerStr text) w = true) ∨
       (∃ t ∈ (lowerStr text).data.tails,
          deadline1At t = true ∨ deadline2At t = true ∨ deadline3At t = true) ∨
       strContains text "!!" = true) := by
  rw [ne_eq, c9_decompose]
  constructor
  · intro h
    by_contra hc
    push_neg at hc
    obtain ⟨h1, h2, h3⟩ := hc
    refine h ⟨?_, ?_, ?_, ?_, ?_⟩
    · intro w hw
      exact h1 w ((by decide :
        ∀ w ∈ urgency_words,
          w ∈ ["urgent", "asap", "emergency", "immediately", "critical",
               "as soon as possible", "quickly", "right away",
               "highest priority", "deadline", "sos", "time sensitive"]) w hw)
    · intro t ht h1t
      exact (h2 t ht).1 h1t
    · intro t ht h2t
      exact (h2 t ht).2.1 h2t
    · intro t ht h3t
      exact (h2 t ht).2.2 h3t
    · intro hb
      simp only [Bool.or_eq_true] at hb
      rcases hb with h' | h'
      · exact h3 (strContains_double_bang_of_triple text h')
      · exact h3 h'
  · rintro (⟨w, hw, hcw⟩ | ⟨t, ht, hpat⟩ | hb) ⟨hA, hB1, hB2, hB3, hC⟩
    · exact hA w ((by decide :
        ∀ w ∈ ["urgent", "asap", "emergency", "immediately", "critical",
               "as soon as possible", "quickly", "right away",
               "highest priority", "deadline", "sos", "time sensitive"],
          w ∈ urgency_words) w hw) hcw
    · rcases hpat with h' | h' | h'
      · exact hB1 t ht h'
      · exact hB2 t ht h'
      · exact hB3 t ht h'
    · exact hC (by simp [hb])

theorem findallAux_irrel : ∀ (fuel fuel' : Nat) (l : List Char),
    l.length ≤ fuel → l.length ≤ fuel' → findallAux fuel l = findallAux fuel' l := by
  intro fuel
  induction fuel with
  | zero =>
    intro fuel' l hl _
    have : l = [] := List.eq_nil_of_length_eq_zero (Nat.le_zero.mp hl)
    subst this
    cases fuel' <;> rfl
  | succ n ih =>
    intro fuel' l hl hl'
    cases l with
    | nil => cases fuel' <;> rfl
    | cons c rest =>
      cases fuel' with
      | zero =>
        simp at hl'
      | succ m =>
        simp only [List.length_cons, Nat.add_le_add_iff_right] at hl hl'
        simp only [findallAux]
        by_cases hc : c = lbrace
        · rw [if_pos hc, if_pos hc]
          cases hdw : rest.dropWhile (fun d => d != rbrace) with
          | nil => exact ih m rest hl hl'
          | cons hd tail =>
            have htail : tail.length ≤ rest.length := by
              have hle := (List.dropWhile_sublist (l := rest)
                (fun d => d != rbrace)).length_le
              rw [hdw] at hle
              simp only [List.length_cons] at hle
              omega
            by_cases hname : rest.takeWhile (fun d => d != rbrace) = []
            · simp only [hname, if_pos]
              exact ih m rest hl hl'
            · simp only [if_neg hname]
              rw [ih m tail (le_trans htail hl) (le_trans htail hl')]
        · rw [if_neg hc, if_neg hc]
          exact ih m rest hl hl'

theorem replaceAllAux_irrel (pat rep : List Char) : ∀ (fuel fuel' : Nat) (l : List Char),
    l.length ≤ fuel → l.length ≤ fuel' →
    replaceAllAux pat rep fuel l = replaceAllAux pat rep fuel' l := by
  intro fuel
  induction fuel with
  | zero =>
    intro fuel' l hl _
    have : l = [] := List.eq_nil_of_length_eq_zero (Nat.le_zero.mp hl)
    subst this
    cases fuel' <;> rfl
  | succ n ih =>
    intro fuel' l hl hl'
    cases l with
    | nil => cases fuel' <;> rfl
    | cons c rest =>
      cases fuel' with
      | zero =>
        simp at hl'
      | succ m =>
        simp only [List.length_cons, Nat.add_le_add_iff_right] at hl hl'
        simp only [replaceAllAux]
        by_cases hcond : (!pat.isEmpty && pat.isPrefixOf (c :: rest)) = true
        · rw [if_pos hcond, if_pos hcond]
          have hdrop : (rest.drop (pat.length - 1)).length ≤ rest.length := by
            rw [List.length_drop]
            omega
          rw [ih m (rest.drop (pat.length - 1)) (le_trans hdrop hl)
            (le_trans hdrop hl')]
        · rw [if_neg hcond, if_neg hcond]
          rw [ih m rest hl hl']

theorem findall_cons_not_lbrace (c : Char) (rest : List Char) (h : ¬ c = lbrace) :
    findall (c :: rest) = findall rest := by
  show findallAux (c :: rest).length (c :: rest) = findallAux rest.length rest
  simp only [List.length_cons, findallAux, if_neg h]

theorem findall_append_lit (lit s : List Char) (h : lbrace ∉ lit) :
    findall (lit ++ s) = findall s := by
  induction lit with
  | nil => rfl
  | cons c cs ih =>
    have hc : ¬ c = lbrace := fun he => h (he ▸ List.mem_cons_self c cs)
    rw [List.cons_append, findall_cons_not_lbrace c (cs ++ s) hc]
    exact ih (fun hm => h (List.mem_cons_of_mem c hm))

theorem findall_nil_of_no_lbrace (l : List Char) (h : lbrace ∉ l) :
    findall l = [] := by
  have := findall_append_lit l [] h
  rw [List.append_nil] at this
  rw [this]
  rfl

theorem takeWhile_append_rbrace (n s : List Char) (hn : rbrace ∉ n) :
    (n ++ rbrace :: s).takeWhile (fun d => d != rbrace) = n := by
  induction n with
  | nil => simp [List.takeWhile_cons]
  | cons c cs ih =>
    have hc : (c != rbrace) = true := by
      simp only [bne_iff_ne, ne_eq]
      exact fun he => hn (he ▸ List.mem_cons_self c cs)
    rw [List.cons_append, List.takeWhile_cons, if_pos hc]
    rw [ih (fun hm => hn (List.mem_cons_of_mem c hm))]

theorem dropWhile_append_rbrace (n s : List Char) (hn : rbrace ∉ n) :
    (n ++ rbrace :: s).dropWhile (fun d => d != rbrace) = rbrace :: s := by
  induction n with
  | nil => simp [List.dropWhile_cons]
  | cons c cs ih =>
    have hc : (c != rbrace) = true := by
      simp only [bne_iff_ne, ne_eq]
      exact fun he => hn (he ▸ List.mem_cons_self c cs)
    rw [List.cons_append, List.dropWhile_cons, if_pos hc]
    exact ih (fun hm => hn (List.mem_cons_of_mem c hm))

theorem findall_token (n s : List Char) (hn2 : rbrace ∉ n) (hne : n ≠ []) :
    findall (lbrace :: (n ++ rbrace :: s)) = n :: findall s := by
  show findallAux (lbrace :: (n ++ rbrace :: s)).length (lbrace :: (n ++ rbrace :: s)) =
    n :: findall s
  simp only [List.length_cons, findallAux, if_pos rfl, if_true,
    dropWhile_append_rbrace n s hn2, takeWhile_append_rbrace n s hn2]
  rw [if_neg hne]
  congr 1
  apply findallAux_irrel
  · simp [List.length_append]
    omega
  · exact le_refl _

theorem bracedToken_append (m s : List Char) :
    bracedToken m ++ s = lbrace :: (m ++ rbrace :: s) := by
  simp [bracedToken, List.cons_append, List.append_assoc]

theorem findall_assemble :
    ∀ (segs : List (List Char × List Char)) (tailLit : List Char),
    GoodSegs segs → lbrace ∉ tailLit →
    findall (assemble segs tailLit) = segs.map (fun p => p.2) := by
  intro segs
  induction segs with
  | nil =>
    intro tailLit _ ht
    exact findall_nil_of_no_lbrace tailLit ht
  | cons p rest ih =>
    intro tailLit hs ht
    obtain ⟨lit, m⟩ := p
    have hp := hs (lit, m) (List.mem_cons_self _ _)
    have hrest : GoodSegs rest := fun q hq => hs q (List.mem_cons_of_mem _ hq)
    show findall (lit ++ bracedToken m ++ assemble rest tailLit) = _
    rw [List.append_assoc, findall_append_lit lit _ hp.1, bracedToken_append]
    rw [findall_token m _ hp.2.2.1 hp.2.2.2]
    rw [ih tailLit hrest ht]
    rfl

theorem replaceAll_cons_skip (pat rep : List Char) (c : Char) (rest : List Char)
    (hc : pat.isPrefixOf (c :: rest) = false) :
    replaceAll pat rep (c :: rest) = c :: replaceAll pat rep rest := by
  show replaceAllAux pat rep (c :: rest).length (c :: rest) =
    c :: replaceAllAux pat rep rest.length rest
  simp only [List.length_cons, replaceAllAux, hc, Bool.and_false, if_neg]
  simp

theorem replaceAll_head_match (pat rep s : List Char) (hp : pat ≠ []) :
    replaceAll pat rep (pat ++ s) = rep ++ replaceAll pat rep s := by
  obtain ⟨p0, pt, rfl⟩ : ∃ p0 pt, pat = p0 :: pt := by
    cases pat with
    | nil => exact absurd rfl hp
    | cons a b => exact ⟨a, b, rfl⟩
  show replaceAllAux _ rep ((p0 :: pt) ++ s).length ((p0 :: pt) ++ s) = _
  have hcond : (!(p0 :: pt).isEmpty && (p0 :: pt).isPrefixOf ((p0 :: pt) ++ s)) = true := by
    simp only [List.isEmpty_cons, Bool.not_false, Bool.true_and]
    rw [List.isPrefixOf_iff_prefix]
    exact ⟨s, rfl⟩
  rw [show ((p0 :: pt) ++ s).length = (pt ++ s).length + 1 by simp]
  simp only [List.cons_append, replaceAllAux]
  rw [if_pos (by simp only [List.cons_append] at hcond; exact hcond)]
  congr 1
  rw [show (p0 :: pt).length - 1 = pt.length by simp]
  simp only [List.append_eq]
  rw [List.drop_left pt s]
  apply replaceAllAux_irrel
  · simp [List.length_append]
  · exact le_refl _

theorem replaceAll_walk (pat rep x s : List Char) (pt : List Char)
    (hpat : pat = lbrace :: pt) (hx : lbrace ∉ x) :
    replaceAll pat rep (x ++ s) = x ++ replaceAll pat rep s := by
  induction x with
  | nil => rfl
  | cons c cs ih =>
    have hc : ¬ c = lbrace := fun he => hx (he ▸ List.mem_cons_self c cs)
    have hpre : pat.isPrefixOf (c :: (cs ++ s)) = false := by
      subst hpat
      simp only [List.isPrefixOf, beq_iff_eq]
      rw [Bool.and_eq_false_iff]
      left
      simp only [beq_eq_false_iff_ne, ne_eq]
      exact fun he => hc he.symm
    rw [List.cons_append, replaceAll_cons_skip pat rep c (cs ++ s) hpre]
    rw [ih (fun hm => hx (List.mem_cons_of_mem c hm))]
    rfl

theorem replaceAll_no_lbrace (pat rep s : List Char) (pt : List Char)
    (hpat : pat = lbrace :: pt) (hs : lbrace ∉ s) :
    replaceAll pat rep s = s := by
  have h2 := replaceAll_walk pat rep s [] pt hpat hs
  rw [List.append_nil] at h2
  rw [h2, show replaceAll pat rep [] = [] from rfl, List.append_nil]

theorem token_prefix_eq : ∀ (n m z : List Char), rbrace ∉ n → rbrace ∉ m →
    (n ++ [rbrace]) <+: (m ++ rbrace :: z) → n = m := by
  intro n
  induction n with
  | nil =>
    intro m z _ hm h
    cases m with
    | nil => rfl
    | cons c cs =>
      rw [List.nil_append, List.cons_append, List.cons_prefix_cons] at h
      exact absurd h.1.symm (fun he => hm (he ▸ List.mem_cons_self c cs))
  | cons a as ih =>
    intro m z hn hm h
    cases m with
    | nil =>
      rw [List.cons_append, List.nil_append, List.cons_prefix_cons] at h
      exact absurd h.1 (fun he => hn (he ▸ List.mem_cons_self a as))
    | cons c cs =>
      rw [List.cons_append, List.cons_append, List.cons_prefix_cons] at h
      have htail : as = cs :=
        ih cs z (fun hm2 => hn (List.mem_cons_of_mem a hm2))
          (fun hm2 => hm (List.mem_cons_of_mem c hm2)) h.2
      rw [h.1, htail]

theorem replaceAll_skip_token (n m rep s : List Char) (hnm : ¬ n = m)
    (hn : rbrace ∉ n) (hm1 : lbrace ∉ m) (hm2 : rbrace ∉ m) :
    replaceAll (bracedToken n) rep (bracedToken m ++ s) =
      bracedToken m ++ replaceAll (bracedToken n) rep s := by
  rw [bracedToken_append]
  have hpre : (bracedToken n).isPrefixOf (lbrace :: (m ++ rbrace :: s)) = false := by
    by_contra hx
    rw [Bool.not_eq_false, List.isPrefixOf_iff_prefix] at hx
    rw [show bracedToken n = lbrace :: (n ++ [rbrace]) from rfl] at hx
    rw [List.cons_prefix_cons] at hx
    exact hnm (token_prefix_eq n m s hn hm2 hx.2)
  rw [replaceAll_cons_skip _ rep lbrace _ hpre]
  have hwalk := replaceAll_walk (bracedToken n) rep (m ++ [rbrace]) s
    (n ++ [rbrace]) rfl
    (by
      intro hmem
      rcases List.mem_append.mp hmem with h' | h'
      · exact hm1 h'
      · simp at h'
        exact absurd h' (by decide))
  rw [List.append_assoc, List.singleton_append] at hwalk
  rw [hwalk]
  rfl

theorem dictGet_mem : ∀ (d : List (String × String)) (k v : String),
    dictGet d k = some v → (k, v) ∈ d := by
  intro d
  induction d with
  | nil => intro k v h; exact absurd h (by simp [dictGet])
  | cons p rest ih =>
    intro k v h
    obtain ⟨a, b⟩ := p
    simp only [dictGet] at h
    by_cases ha : a = k
    · rw [if_pos ha] at h
      injection h with h
      subst ha h
      exact List.mem_cons_self _ _
    · rw [if_neg ha] at h
      exact List.mem_cons_of_mem _ (ih k v h)

theorem substValue_no_lbrace (vars : List (String × String)) (n : List Char)
    (hv : GoodVars vars) (hn : lbrace ∉ n) : lbrace ∉ substValue vars n := by
  unfold substValue
  cases h : dictGet vars (String.mk n) with
  | none =>
    intro hmem
    rcases List.mem_cons.mp hmem with h' | h'
    · exact absurd h' (by decide)
    · rcases List.mem_append.mp h' with h'' | h''
      · exact hn h''
      · simp at h''
        exact absurd h'' (by decide)
  | some v =>
    exact hv (String.mk n, v) (dictGet_mem vars (String.mk n) v h)

theorem renderPartial_cons (vars : List (String × String)) (done : List (List Char))
    (lit m : List Char) (rest : List (List Char × List Char)) (tailLit : List Char) :
    renderPartial vars done ((lit, m) :: rest) tailLit =
      lit ++ ((if m ∈ done then substValue vars m else bracedToken m) ++
        renderPartial vars done rest tailLit) := by
  simp [renderPartial, List.append_assoc]

theorem renderPartial_empty_done (vars : List (String × String)) :
    ∀ (segs : List (List Char × List Char)) (tailLit : List Char),
    renderPartial vars [] segs tailLit = assemble segs tailLit := by
  intro segs
  induction segs with
  | nil => intro tailLit; rfl
  | cons p rest ih =>
    intro tailLit
    obtain ⟨lit, m⟩ := p
    rw [renderPartial_cons]
    simp only [List.not_mem_nil, if_false]
    rw [ih tailLit]
    show _ = lit ++ bracedToken m ++ assemble rest tailLit
    rw [List.append_assoc]

theorem replaceAll_renderPartial (vars : List (String × String)) (n : List Char)
    (hv : GoodVars vars) (hn1 : lbrace ∉ n) (hn2 : rbrace ∉ n) :
    ∀ (segs : List (List Char × List Char)) (done : List (List Char))
      (tailLit : List Char), GoodSegs segs → lbrace ∉ tailLit →
    replaceAll (bracedToken n) (substValue vars n)
        (renderPartial vars done segs tailLit) =
      renderPartial vars (n :: done) segs tailLit := by
  intro segs
  induction segs with
  | nil =>
    intro done tailLit _ ht
    exact replaceAll_no_lbrace _ _ tailLit (n ++ [rbrace]) rfl ht
  | cons p rest ih =>
    intro done tailLit hs ht
    obtain ⟨lit, m⟩ := p
    have hp := hs (lit, m) (List.mem_cons_self _ _)
    have hrest : GoodSegs rest := fun q hq => hs q (List.mem_cons_of_mem _ hq)
    rw [renderPartial_cons, renderPartial_cons]
    rw [replaceAll_walk (bracedToken n) (substValue vars n) lit _
      (n ++ [rbrace]) rfl hp.1]
    congr 1
    by_cases hd : m ∈ done
    · rw [if_pos hd, if_pos (List.mem_cons_of_mem n hd)]
      rw [replaceAll_walk (bracedToken n) (substValue vars n)
        (substValue vars m) _ (n ++ [rbrace]) rfl
        (substValue_no_lbrace vars m hv hp.2.1)]
      rw [ih done tailLit hrest ht]
    · by_cases hmn : m = n
      · subst hmn
        rw [if_neg hd, if_pos (List.mem_cons_self m done)]
        rw [replaceAll_head_match _ _ _ (by simp [bracedToken])]
        rw [ih done tailLit hrest ht]
      · rw [if_neg hd, if_neg (by simp [List.mem_cons, hmn, hd])]
        rw [replaceAll_skip_token n m _ _ (fun he => hmn he.symm) hn2
          hp.2.1 hp.2.2.1]
        rw [ih done tailLit hrest ht]

theorem foldl_replaceAll_renderPartial (vars : List (String × String))
    (segs : List (List Char × List Char)) (tailLit : List Char)
    (hs : GoodSegs segs) (ht : lbrace ∉ tailLit) (hv : GoodVars vars) :
    ∀ (names : List (List Char)) (done : List (List Char)),
    (∀ nm ∈ names, lbrace ∉ nm ∧ rbrace ∉ nm) →
    List.foldl (fun acc name =>
        replaceAll (bracedToken name) (substValue vars name) acc)
      (renderPartial vars done segs tailLit) names =
      renderPartial vars (names.reverse ++ done) segs tailLit := by
  intro names
  induction names with
  | nil =>
    intro done _
    simp
  | cons nm rest ih =>
    intro done hnames
    have hnm := hnames nm (List.mem_cons_self _ _)
    rw [List.foldl_cons]
    rw [replaceAll_renderPartial vars nm hv hnm.1 hnm.2 segs done tailLit hs ht]
    rw [ih (nm :: done) (fun x hx => hnames x (List.mem_cons_of_mem _ hx))]
    congr 1
    simp

theorem renderPartial_all_done (vars : List (String × String))
    (done : List (List Char)) :
    ∀ (segs : List (List Char × List Char)) (tailLit : List Char),
    (∀ p ∈ segs, p.2 ∈ done) →
    renderPartial vars done segs tailLit = renderSpec vars segs tailLit := by
  intro segs
  induction segs with
  | nil => intro tailLit _; rfl
  | cons p rest ih =>
    intro tailLit h
    obtain ⟨lit, m⟩ := p
    rw [renderPartial_cons]
    rw [if_pos (h (lit, m) (List.mem_cons_self _ _))]
    rw [ih tailLit (fun q hq => h q (List.mem_cons_of_mem _ hq))]
    show _ = lit ++ substValue vars m ++ renderSpec vars rest tailLit
    rw [List.append_assoc]

theorem renderSpec_no_lbrace (vars : List (String × String))
    (hv : GoodVars vars) :
    ∀ (segs : List (List Char × List Char)) (tailLit : List Char),
    GoodSegs segs → lbrace ∉ tailLit →
    lbrace ∉ renderSpec vars segs tailLit := by
  intro segs
  induction segs with
  | nil => intro tailLit _ ht; exact ht
  | cons p rest ih =>
    intro tailLit hs ht
    obtain ⟨lit, m⟩ := p
    have hp := hs (lit, m) (List.mem_cons_self _ _)
    have hrest : GoodSegs rest := fun q hq => hs q (List.mem_cons_of_mem _ hq)
    intro hmem
    show False
    have : lbrace ∈ lit ++ substValue vars m ++ renderSpec vars rest tailLit := hmem
    rcases List.mem_append.mp this with h' | h'
    · rcases List.mem_append.mp h' with h'' | h''
      · exact hp.1 h''
      · exact substValue_no_lbrace vars m hv hp.2.1 h''
    · exact ih tailLit hrest ht h'

theorem fill_template_eq_foldl (template : String) (vars : List (String × String)) :
    fill_template template vars = String.mk ((findall template.data).foldl
      (fun acc name => replaceAll (bracedToken name) (substValue vars name) acc)
      template.data) := by
  unfold fill_template
  congr 1
  have hfun : (fun (acc name : List Char) =>
      match dictGet vars (String.mk name) with
      | some v => replaceAll (lbrace :: name ++ [rbrace]) v.data acc
      | none => replaceAll (lbrace :: name ++ [rbrace]) ('[' :: name ++ [']']) acc) =
      (fun acc name => replaceAll (bracedToken name) (substValue vars name) acc) := by
    funext acc name
    unfold substValue bracedToken
    cases h : dictGet vars (String.mk name) <;> rfl
  rw [hfun]

/-- C5 counterexample: filling the template consisting of the single
placeholder token for "a" with the supplied value "\x7bb\x7d" yields
exactly "\x7bb\x7d": a remaining placeholder token (`findall` finds "b",
and the token is an infix of the output), refuting the claim that the
output never contains `\x7bplaceholder\x7d` tokens. -/
theorem c5_counterexample :
    fill_template (String.mk [lbrace, 'a', rbrace])
        [("a", String.mk [lbrace, 'b', rbrace])] =
      String.mk [lbrace, 'b', rbrace] ∧
    findall (fill_template (String.mk [lbrace, 'a', rbrace])
        [("a", String.mk [lbrace, 'b', rbrace])]).data = [['b']] ∧
    (lbrace :: ['b'] ++ [rbrace]) <:+:
      (fill_template (String.mk [lbrace, 'a', rbrace])
        [("a", String.mk [lbrace, 'b', rbrace])]).data := by
  refine ⟨?_, ?_, ?_⟩ <;> decide

/-- C5 (amended): for a template that alternates literals and placeholders,
where literals contain no opening brace and placeholder names are non-empty
and brace-free, and where no supplied value contains an opening brace,
`_fill_template` replaces every placeholder with its supplied value or the
bracketed `[name]` fallback (never raising, being a total function), and
the output contains no remaining `\x7bplaceholder\x7d` token. -/
theorem c5_template_filling_amended (segs : List (List Char × List Char))
    (tailLit : List Char) (vars : List (String × String))
    (hs : GoodSegs segs) (ht : lbrace ∉ tailLit) (hv : GoodVars vars) :
    (fill_template (String.mk (assemble segs tailLit)) vars).data =
      renderSpec vars segs tailLit ∧
    ∀ name, ¬ ((lbrace :: name ++ [rbrace]) <:+:
      (fill_template (String.mk (assemble segs tailLit)) vars).data) := by
  have hnames : ∀ nm ∈ segs.map (fun p => p.2), lbrace ∉ nm ∧ rbrace ∉ nm := by
    intro nm hnm
    obtain ⟨p, hp, rfl⟩ := List.mem_map.mp hnm
    exact ⟨(hs p hp).2.1, (hs p hp).2.2.1⟩
  have hmain : (fill_template (String.mk (assemble segs tailLit)) vars).data =
      renderSpec vars segs tailLit := by
    rw [fill_template_eq_foldl]
    show ((findall (assemble segs tailLit)).foldl _ (assemble segs tailLit)) = _
    rw [findall_assemble segs tailLit hs ht]
    rw [← renderPartial_empty_done vars segs tailLit]
    rw [foldl_replaceAll_renderPartial vars segs tailLit hs ht hv _ [] hnames]
    apply renderPartial_all_done
    intro p hp
    rw [List.append_nil, List.mem_reverse]
    exact List.mem_map.mpr ⟨p, hp, rfl⟩
  refine ⟨hmain, ?_⟩
  intro name
  rw [hmain]
  intro hinf
  obtain ⟨u, v, huv⟩ := hinf
  have hmem : lbrace ∈ renderSpec vars segs tailLit := by
    rw [← huv]
    simp [List.mem_append]
  exact renderSpec_no_lbrace vars hv segs tailLit hs ht hmem

/-- C5 witness: the well-formed template "Hello \x7bname\x7d!" with value
"Bob" supplied for "name" fills to "Hello Bob!". -/
theorem c5_witness :
    GoodSegs [("Hello ".data, "name".data)] ∧
    lbrace ∉ "!".data ∧
    GoodVars [("name", "Bob")] ∧
    (fill_template (String.mk (assemble [("Hello ".data, "name".data)] "!".data))
      [("name", "Bob")]).data = "Hello Bob!".data := by
  refine ⟨?_, ?_, ?_, ?_⟩
  · unfold GoodSegs
    decide
  · decide
  · unfold GoodVars
    decide
  · rw [(c5_template_filling_amended [("Hello ".data, "name".data)] "!".data
      [("name", "Bob")] (by unfold GoodSegs; decide) (by decide)
      (by unfold GoodVars; decide)).1]
    decide
